import Mathlib

/-!
Shallow embedding of the chunking / embedding / incremental-indexing pipeline
of the marver_chat repository (src/api/app.py, src/api/ingest_transcripts.py,
src/ingest_transcripts.py), together with theorems settling the specification
claims about it.

Modelling conventions.  Python strings are modelled as lists of characters
(List Char); byte strings (the result of text.encode()) as lists of byte
values (List Nat); Python ints as Int or Nat; Python floats as exact
rationals.  Every float operation performed by the modelled code -- the
53-bit random() draw (a*2^26 + b) / 2^53 and uniform(-1, 1) = -1 + 2*random()
-- is exact in IEEE double precision, so the rational model computes the very
same values the Python code does.  Network calls are modelled by explicit
outcome parameters (oracles): a function from attempt or batch number to the
outcome of that request.
-/

namespace MC

/-! ### Python string primitives used by chunk_text -/

/-- Whitespace test of Python str.split() for the ASCII range. -/
def pyIsSpace (c : Char) : Bool :=
  c = ' ' || c = '\t' || c = '\n' || c = '\r' || c = '\x0b' || c = '\x0c'

/-- Helper of pySplit: current partial word is accumulated in reverse. -/
def pySplitGo : List Char → List Char → List (List Char)
  | [], acc => if acc.isEmpty then [] else [acc.reverse]
  | c :: rest, acc =>
    if pyIsSpace c then
      if acc.isEmpty then pySplitGo rest [] else acc.reverse :: pySplitGo rest []
    else pySplitGo rest (c :: acc)

/-- Python text.split(): split on whitespace runs, dropping empty parts. -/
def pySplit (text : List Char) : List (List Char) :=
  pySplitGo text []

/-- The whitespace normalisation of chunk_text: " ".join(text.split()). -/
def normalizeWs (text : List Char) : List Char :=
  List.intercalate [' '] (pySplit text)

/-- Adjust a (possibly negative) Python slice / find index to an absolute
position in a sequence of length len, exactly as CPython does: a negative
index is taken from the end and clamped at 0, a nonnegative one is clamped
at len. -/
def pyAdjIndex (len : Nat) (i : Int) : Nat :=
  if i < 0 then ((len : Int) + i).toNat else min i.toNat len

/-- Python slice l[a:b] with int (possibly negative) endpoints. -/
def pySlice (l : List Char) (a b : Int) : List Char :=
  (l.take (pyAdjIndex l.length b)).drop (pyAdjIndex l.length a)

/-- Python text.find(ch, start) for a single-character needle: the least
index at or after the adjusted start where ch occurs, or -1. -/
def pyFind (l : List Char) (c : Char) (start : Int) : Int :=
  let s := pyAdjIndex l.length start
  match (l.drop s).findIdx? (fun x => x = c) with
  | some k => ((s + k : Nat) : Int)
  | none => -1

/-! ### The chunker (chunk_text in src/api/app.py lines 215-235, identical in
src/ingest_transcripts.py lines 110-129 and src/api/ingest_transcripts.py
lines 164-184) -/

/-- Sentence-boundary refinement of a proposed chunk end e (applied only when
e < len(cleaned)): next_period = cleaned.find(".", e - 20); if
next_period > 0 and next_period < e + 20 then e becomes next_period + 1. -/
def refineEnd (cleaned : List Char) (e : Int) : Int :=
  let p := pyFind cleaned '.' (e - 20)
  if 0 < p ∧ p < e + 20 then p + 1 else e

/-- One while-loop of chunk_text, with explicit fuel.  The loop runs while
start < len(cleaned); the result is none exactly when the loop needs more
than fuel iterations (in particular, if the result is none for every fuel,
the Python loop never terminates). -/
def chunkLoop (cleaned : List Char) (chunkSize overlap : Int) :
    Nat → Int → List (List Char) → Option (List (List Char))
  | 0, start, acc =>
    if start < (cleaned.length : Int) then none else some acc.reverse
  | fuel + 1, start, acc =>
    if start < (cleaned.length : Int) then
      let e0 := min (start + chunkSize) (cleaned.length : Int)
      let e := if e0 < (cleaned.length : Int) then refineEnd cleaned e0 else e0
      chunkLoop cleaned chunkSize overlap fuel (e - overlap)
        (pySlice cleaned start e :: acc)
    else some acc.reverse

/-- chunk_text(text, chunk_size, overlap): clean the text, then walk it
producing slices cleaned[start:end] and stepping start to end - overlap. -/
def chunk_text (text : List Char) (chunkSize overlap : Int) (fuel : Nat) :
    Option (List (List Char)) :=
  chunkLoop (normalizeWs text) chunkSize overlap fuel 0 []

/-- Concrete input for the termination analysis. -/
def hw : List Char := ['h', 'e', 'l', 'l', 'o', ' ', 'w', 'o', 'r', 'l', 'd']

/-- Concrete input for the boundary-refinement analysis: six letters, a
period at index 6, then 24 more letters (length 31). -/
def c2text : List Char :=
  ['a', 'a', 'a', 'a', 'a', 'a', '.'] ++ List.replicate 24 'b'

/-! ### MD5 (hashlib.md5, RFC 1321), on byte strings

The deterministic embedder hashes text.encode() with MD5, reads the hex
digest as a big-endian integer and reduces it modulo 2^32.  The message is
modelled as its list of byte values. -/

/-- Rotate a 32-bit value left by n bits. -/
def rotl32 (x n : Nat) : Nat :=
  ((x <<< n) % 2 ^ 32) ||| (x >>> (32 - n))

/-- The 64 MD5 sine-table constants. -/
def md5K : List Nat :=
  [0xd76aa478, 0xe8c7b756, 0x242070db, 0xc1bdceee,
   0xf57c0faf, 0x4787c62a, 0xa8304613, 0xfd469501,
   0x698098d8, 0x8b44f7af, 0xffff5bb1, 0x895cd7be,
   0x6b901122, 0xfd987193, 0xa679438e, 0x49b40821,
   0xf61e2562, 0xc040b340, 0x265e5a51, 0xe9b6c7aa,
   0xd62f105d, 0x02441453, 0xd8a1e681, 0xe7d3fbc8,
   0x21e1cde6, 0xc33707d6, 0xf4d50d87, 0x455a14ed,
   0xa9e3e905, 0xfcefa3f8, 0x676f02d9, 0x8d2a4c8a,
   0xfffa3942, 0x8771f681, 0x6d9d6122, 0xfde5380c,
   0xa4beea44, 0x4bdecfa9, 0xf6bb4b60, 0xbebfbc70,
   0x289b7ec6, 0xeaa127fa, 0xd4ef3085, 0x04881d05,
   0xd9d4d039, 0xe6db99e5, 0x1fa27cf8, 0xc4ac5665,
   0xf4292244, 0x432aff97, 0xab9423a7, 0xfc93a039,
   0x655b59c3, 0x8f0ccc92, 0xffeff47d, 0x85845dd1,
   0x6fa87e4f, 0xfe2ce6e0, 0xa3014314, 0x4e0811a1,
   0xf7537e82, 0xbd3af235, 0x2ad7d2bb, 0xeb86d391]

/-- The 64 MD5 per-round left-rotation amounts. -/
def md5S : List Nat :=
  [7, 12, 17, 22, 7, 12, 17, 22, 7, 12, 17, 22, 7, 12, 17, 22,
   5, 9, 14, 20, 5, 9, 14, 20, 5, 9, 14, 20, 5, 9, 14, 20,
   4, 11, 16, 23, 4, 11, 16, 23, 4, 11, 16, 23, 4, 11, 16, 23,
   6, 10, 15, 21, 6, 10, 15, 21, 6, 10, 15, 21, 6, 10, 15, 21]

/-- The MD5 nonlinear function of round i applied to registers b, c, d
(bitwise complement written as xor with the 32-bit all-ones mask). -/
def md5F (i b c d : Nat) : Nat :=
  if i < 16 then (b &&& c) ||| ((b ^^^ 0xffffffff) &&& d)
  else if i < 32 then (d &&& b) ||| ((d ^^^ 0xffffffff) &&& c)
  else if i < 48 then b ^^^ c ^^^ d
  else c ^^^ (b ||| (d ^^^ 0xffffffff))

/-- The message-word index used by MD5 round i. -/
def md5G (i : Nat) : Nat :=
  if i < 16 then i
  else if i < 32 then (5 * i + 1) % 16
  else if i < 48 then (3 * i + 5) % 16
  else (7 * i) % 16

/-- Little-endian 32-bit word g of a 64-byte block. -/
def md5Word (blk : List Nat) (g : Nat) : Nat :=
  blk.getD (4 * g) 0 + 256 * blk.getD (4 * g + 1) 0 +
    65536 * blk.getD (4 * g + 2) 0 + 16777216 * blk.getD (4 * g + 3) 0

/-- One of the 64 MD5 rounds on the register quadruple. -/
def md5Round (blk : List Nat) (r : Nat × Nat × Nat × Nat) (i : Nat) :
    Nat × Nat × Nat × Nat :=
  let (a, b, c, d) := r
  let f := (md5F i b c d + a + md5K.getD i 0 + md5Word blk (md5G i)) % 2 ^ 32
  (d, (b + rotl32 f (md5S.getD i 0)) % 2 ^ 32, b, c)

/-- Process one 64-byte block, adding the round output to the state. -/
def md5Block (st : Nat × Nat × Nat × Nat) (blk : List Nat) :
    Nat × Nat × Nat × Nat :=
  let (a, b, c, d) := (List.range 64).foldl (md5Round blk) st
  ((st.1 + a) % 2 ^ 32, (st.2.1 + b) % 2 ^ 32,
   (st.2.2.1 + c) % 2 ^ 32, (st.2.2.2 + d) % 2 ^ 32)

/-- MD5 padding: append 0x80, zero bytes up to 56 mod 64, then the bit
length as a little-endian 64-bit quantity. -/
def md5Pad (msg : List Nat) : List Nat :=
  msg ++ 128 :: List.replicate ((119 - msg.length % 64) % 64) 0 ++
    (List.range 8).map (fun i => (((msg.length * 8) % 2 ^ 64) >>> (8 * i)) % 256)

/-- Split a padded message into 64-byte blocks. -/
def md5Chunks : List Nat → List (List Nat)
  | [] => []
  | b :: rest => ((b :: rest).take 64) :: md5Chunks ((b :: rest).drop 64)
termination_by l => l.length
decreasing_by simp [List.length_drop]; omega

/-- The 16 digest bytes of a message (each register serialised
little-endian). -/
def md5Digest (msg : List Nat) : List Nat :=
  let st := (md5Chunks (md5Pad msg)).foldl md5Block
    (0x67452301, 0xefcdab89, 0x98badcfe, 0x10325476)
  ((List.range 4).map fun i => (st.1 >>> (8 * i)) % 256) ++
    ((List.range 4).map fun i => (st.2.1 >>> (8 * i)) % 256) ++
    ((List.range 4).map fun i => (st.2.2.1 >>> (8 * i)) % 256) ++
    ((List.range 4).map fun i => (st.2.2.2 >>> (8 * i)) % 256)

/-- int(md5(msg).hexdigest(), 16): the digest bytes as a big-endian
integer. -/
def md5Int (msg : List Nat) : Nat :=
  (md5Digest msg).foldl (fun acc bv => 256 * acc + bv) 0

/-! ### The Mersenne Twister of CPython random (MT19937)

random.Random(seed) and random.seed(seed) both run the same C seeding code:
the nonnegative int is split into 32-bit little-endian words and fed to
init_by_array.  random() produces (a >> 5) * 2^26 + (b >> 6) over 2^53 from
two successive 32-bit outputs; uniform(x, y) = x + (y - x) * random(). -/

/-- State of a Mersenne Twister generator: 624 words and the output index. -/
structure MTState where
  mt : List Nat
  mti : Nat
deriving DecidableEq

/-- Tail of init_genrand: each word is
(1812433253 * (prev xor (prev >> 30)) + i) mod 2^32. -/
def initGenrandFrom (prev i : Nat) : Nat → List Nat
  | 0 => []
  | k + 1 =>
    let v := (1812433253 * (prev ^^^ (prev >>> 30)) + i) % 2 ^ 32
    v :: initGenrandFrom v (i + 1) k

/-- init_genrand(s): the full 624-word state array. -/
def initGenrandList (s : Nat) : List Nat :=
  s % 2 ^ 32 :: initGenrandFrom (s % 2 ^ 32) 1 623

/-- The index wrap-around step shared by both init_by_array loops: when i
reaches 624, copy the last word to position 0 and restart at 1. -/
def ibaWrap (mt : List Nat) (i : Nat) : List Nat × Nat :=
  if 624 ≤ i then (mt.set 0 (mt.getD 623 0), 1) else (mt, i)

/-- First init_by_array loop, mixing the key into the state (all 32-bit
arithmetic); returns the state together with the position index reached,
from which the second loop continues. -/
def ibaLoop1 (key : List Nat) : Nat → List Nat → Nat → Nat → List Nat × Nat
  | 0, mt, i, _ => (mt, i)
  | k + 1, mt, i, j =>
    let prev := mt.getD (i - 1) 0
    let v := ((mt.getD i 0) ^^^ ((prev ^^^ (prev >>> 30)) * 1664525 % 2 ^ 32))
      + key.getD j 0 + j
    let w := ibaWrap (mt.set i (v % 2 ^ 32)) (i + 1)
    ibaLoop1 key k w.1 w.2 (if key.length ≤ j + 1 then 0 else j + 1)

/-- Second init_by_array loop (the C subtraction of i is 32-bit wrapping,
modelled as adding 2^32 - i before reducing). -/
def ibaLoop2 : Nat → List Nat → Nat → List Nat
  | 0, mt, _ => mt
  | k + 1, mt, i =>
    let prev := mt.getD (i - 1) 0
    let v := ((mt.getD i 0) ^^^ ((prev ^^^ (prev >>> 30)) * 1566083941 % 2 ^ 32))
      + (2 ^ 32 - i)
    let w := ibaWrap (mt.set i (v % 2 ^ 32)) (i + 1)
    ibaLoop2 k w.1 w.2

/-- init_by_array(key): seed with 19650218, run both mixing loops, then pin
word 0 to 0x80000000. -/
def initByArray (key : List Nat) : List Nat :=
  let r := ibaLoop1 key (max 624 key.length) (initGenrandList 19650218) 1 0
  (ibaLoop2 623 r.1 r.2).set 0 0x80000000

/-- Base-2^32 little-endian digits of a positive integer. -/
def keyWords (n : Nat) : List Nat :=
  if n = 0 then [] else n % 2 ^ 32 :: keyWords (n / 2 ^ 32)
termination_by n
decreasing_by exact Nat.div_lt_self (Nat.pos_of_ne_zero (by assumption)) (by norm_num)

/-- The init_by_array key CPython builds from a nonnegative int seed. -/
def pyIntSeedKey (n : Nat) : List Nat :=
  if n = 0 then [0] else keyWords n

/-- The generator state right after random.seed(n) / random.Random(n) for a
nonnegative int n (mti = 624 forces a twist before the first output). -/
def pySeedMT (n : Nat) : MTState :=
  MTState.mk (initByArray (pyIntSeedKey n)) 624

/-- One in-place step of the MT19937 twist at position kk. -/
def twistStep (mt : List Nat) (kk : Nat) : List Nat :=
  let y := ((mt.getD kk 0) &&& 0x80000000) |||
    ((mt.getD ((kk + 1) % 624) 0) &&& 0x7fffffff)
  let mag := if y % 2 = 1 then 0x9908b0df else 0
  mt.set kk ((mt.getD ((kk + 397) % 624) 0) ^^^ (y >>> 1) ^^^ mag)

/-- The full MT19937 twist: the in-place loop over all 624 positions. -/
def mtTwist (mt : List Nat) : List Nat :=
  (List.range 624).foldl twistStep mt

/-- The MT19937 output tempering. -/
def mtTemper (y : Nat) : Nat :=
  let y1 := y ^^^ (y >>> 11)
  let y2 := y1 ^^^ ((y1 <<< 7) &&& 0x9d2c5680)
  let y3 := y2 ^^^ ((y2 <<< 15) &&& 0xefc60000)
  y3 ^^^ (y3 >>> 18)

/-- genrand_uint32: twist when the index is exhausted, then temper the next
word. -/
def genrandStep (s : MTState) : Nat × MTState :=
  let s2 := if 624 ≤ s.mti then MTState.mk (mtTwist s.mt) 0 else s
  (mtTemper (s2.mt.getD s2.mti 0), MTState.mk s2.mt (s2.mti + 1))

/-- random(): (a >> 5) * 2^26 + (b >> 6) over 2^53, where a and b are two
successive 32-bit outputs; exact in double precision. -/
def pyRandom (s : MTState) : ℚ × MTState :=
  (((((genrandStep s).1 >>> 5) * 67108864 +
      ((genrandStep (genrandStep s).2).1 >>> 6) : Nat) : ℚ) / 9007199254740992,
    (genrandStep (genrandStep s).2).2)

/-- uniform(a, b) = a + (b - a) * random(). -/
def pyUniform (a b : ℚ) (s : MTState) : ℚ × MTState :=
  (a + (b - a) * (pyRandom s).1, (pyRandom s).2)

/-- dimension successive uniform(-1, 1) draws, threading the generator
state. -/
def uniformDrawsSt : Nat → MTState → List ℚ × MTState
  | 0, s => ([], s)
  | k + 1, s =>
    let x := pyUniform (-1) 1 s
    let rest := uniformDrawsSt k x.2
    (x.1 :: rest.1, rest.2)

/-! ### The two fallback embedders

generate_deterministic_embedding (src/api/app.py lines 278-288, identical
copy in src/api/ingest_transcripts.py lines 227-237) seeds a fresh
random.Random instance; generate_simple_embedding
(src/ingest_transcripts.py lines 132-138) calls random.seed on the
module-level generator, whose prior state is the g argument here, and then
draws from it. -/

/-- generate_deterministic_embedding(text, dimension=1024): seed a fresh
generator with int(md5(text.encode()).hexdigest(), 16) mod 2^32 and draw
dimension uniform(-1, 1) values. -/
def generate_deterministic_embedding (text : List Nat) (dimension : Nat) :
    List ℚ :=
  let seed := md5Int text % 2 ^ 32
  (uniformDrawsSt dimension (pySeedMT seed)).1

/-- generate_simple_embedding(text, dimension=1024): random.seed(seed)
replaces the module generator state g by the freshly seeded state, then the
draws are taken from the module generator; the new module state is
returned alongside the vector. -/
def generate_simple_embedding (g : MTState) (text : List Nat)
    (dimension : Nat) : List ℚ × MTState :=
  let seed := md5Int text % 2 ^ 32
  uniformDrawsSt dimension (pySeedMT seed)

/-! ### The remote embedder client (generate_embedding, src/api/app.py lines
237-276; same structure in src/api/ingest_transcripts.py lines 186-225)

Each network attempt either yields a parsed embedding (HTTP 200 with the
parsed response payload) or fails -- a non-200 status, a transport error or
a parse error inside the try block all take the same control path, logging
and retrying.  The outcomes parameter gives the result of each attempt. -/

/-- Outcome of one embedding-provider request. -/
inductive AttemptOutcome where
  | success : List ℚ → AttemptOutcome
  | failure : AttemptOutcome
deriving DecidableEq

/-- The retry loop: attempts start, start+1, ... for the given remaining
count; the first success returns early, exhaustion returns none.  The
backoff sleeps between failed attempts do not affect the value. -/
def embedAttempts (outcomes : Nat → AttemptOutcome) : Nat → Nat → Option (List ℚ)
  | _, 0 => none
  | attempt, k + 1 =>
    match outcomes attempt with
    | .success e => some e
    | .failure => embedAttempts outcomes (attempt + 1) k

/-- generate_embedding(text, api_key, retries=3): with no (falsy) API key,
return the deterministic embedding immediately; otherwise run the retry
loop and fall back to the deterministic embedding on exhaustion. -/
def generate_embedding (apiKey : Option String) (outcomes : Nat → AttemptOutcome)
    (retries : Nat) (text : List Nat) : List ℚ :=
  match apiKey with
  | none => generate_deterministic_embedding text 1024
  | some _ =>
    (embedAttempts outcomes 0 retries).getD
      (generate_deterministic_embedding text 1024)

/-! ### The batch upsert pipeline

process_documents_background (src/api/app.py lines 377-477) walks the
chunks of a document in slices of 10, builds one vector record per chunk
with id docId ++ "-chunk-" ++ (i + j) where i is the batch start offset and
j the position within the batch, and upserts each batch; a non-200 upsert
response is only printed and the loop continues.  process_file
(src/api/ingest_transcripts.py lines 239-299) is the same.
process_transcript (src/ingest_transcripts.py lines 141-198) differs: it
calls raise_for_status after the upsert, so a failed upsert raises, the
per-file except block catches it, and the remaining batches of that file
are never attempted.  The embed parameter stands for the per-chunk
embedding call, and upsertOk gives the outcome of the upsert request of the
batch starting at a given offset. -/

/-- A vector record as built by the pipeline (metadata text is the chunk
text truncated to 1000 characters). -/
structure VectorRecord where
  id : String
  values : List ℚ
  metaText : List Char
  fileId : String
  title : String
  vtype : String
deriving DecidableEq

/-- Python enumerate with a starting index. -/
def pyEnumFrom : Nat → List α → List (Nat × α)
  | _, [] => []
  | n, x :: xs => (n, x) :: pyEnumFrom (n + 1) xs

/-- Python enumerate(l). -/
def pyEnum (l : List α) : List (Nat × α) :=
  pyEnumFrom 0 l

/-- The record built for the chunk with global index k of a document. -/
def mkVecRecord (docId name ty : String) (embed : List Char → List ℚ)
    (k : Nat) (chunk : List Char) : VectorRecord :=
  { id := docId ++ "-chunk-" ++ toString k
    values := embed chunk
    metaText := chunk.take 1000
    fileId := docId
    title := name
    vtype := ty }

/-- Number of batches of a chunk sequence (batch size 10): the length of
range(0, n, 10). -/
def numBatches (n : Nat) : Nat :=
  (n + 9) / 10

/-- The batch start offsets range(0, n, 10) iterated by the batch loops. -/
def batchStarts (n : Nat) : List Nat :=
  List.range' 0 (numBatches n) 10

/-- The records of the batch chunks[i:i+10]: one per chunk, with global
index i + j for position j within the batch. -/
def batchVectors (docId name ty : String) (embed : List Char → List ℚ)
    (chunks : List (List Char)) (i : Nat) : List VectorRecord :=
  (pyEnum ((chunks.drop i).take 10)).map
    (fun p => mkVecRecord docId name ty embed (i + p.1) p.2)

/-- The batch loop of process_documents_background / process_file: for each
batch start i of range(0, len(chunks), 10), build the records of
chunks[i:i+10], attempt the upsert and record its outcome; a failed upsert
is only printed, so every batch is visited regardless of the outcomes. -/
def appBatchLoop (docId name ty : String) (embed : List Char → List ℚ)
    (upsertOk : Nat → Bool) (chunks : List (List Char)) :
    List (Nat × List VectorRecord × Bool) :=
  (batchStarts chunks.length).map
    (fun i => (i, batchVectors docId name ty embed chunks i, upsertOk i))

/-- All records the pipeline upserts for one document, in order. -/
def appDocRecords (docId name ty : String) (embed : List Char → List ℚ)
    (upsertOk : Nat → Bool) (chunks : List (List Char)) : List VectorRecord :=
  ((appBatchLoop docId name ty embed upsertOk chunks).map
    (fun e => e.2.1)).flatten

/-- The batch loop of process_transcript (src/ingest_transcripts.py) over
the remaining batch starts: same slicing and records, but
raise_for_status raises on a failed upsert, so the loop stops there; the
per-file handler catches the exception.  Returns the trace of attempted
batches and whether the loop completed. -/
def cliBatchGo (fileId fileName : String) (embed : List Char → List ℚ)
    (upsertOk : Nat → Bool) (chunks : List (List Char)) :
    List Nat → List (Nat × List VectorRecord) × Bool
  | [] => ([], true)
  | i :: more =>
    if upsertOk i then
      ((i, batchVectors fileId fileName "transcript" embed chunks i) ::
          (cliBatchGo fileId fileName embed upsertOk chunks more).1,
        (cliBatchGo fileId fileName embed upsertOk chunks more).2)
    else
      ([(i, batchVectors fileId fileName "transcript" embed chunks i)], false)

/-- The full batch phase of process_transcript. -/
def cliBatchLoop (fileId fileName : String) (embed : List Char → List ℚ)
    (upsertOk : Nat → Bool) (chunks : List (List Char)) :
    List (Nat × List VectorRecord) × Bool :=
  cliBatchGo fileId fileName embed upsertOk chunks (batchStarts chunks.length)

/-- Eleven one-character chunks: two batches. -/
def elevenChunks : List (List Char) :=
  List.replicate 11 ['a']

/-! ### Document-level error handling

process_documents_background wraps the whole loop over all documents in a
single try block: an exception raised while processing one document (for
example a transport error of an upsert call) propagates out of the loop, is
caught at run level, and the remaining documents are never processed.  The
standalone scripts instead catch exceptions inside the per-file function
(process_transcript / process_file returns 0 on error) and their main loop
goes on with the next file.  runDoc gives the outcome of processing one
document: the chunk count, or the exception it raises. -/

/-- The document loop of process_documents_background: the trace of
documents attempted; a raised exception ends the run (caught by the single
run-level except handler). -/
def appBackgroundRun (runDoc : String → Except String Nat) :
    List String → List String
  | [] => []
  | d :: rest =>
    match runDoc d with
    | .ok _ => d :: appBackgroundRun runDoc rest
    | .error _ => [d]

/-- The file loop of the standalone scripts: every file is processed; a
file whose processing raises contributes 0 chunks and the loop continues. -/
def cliRunFiles (runFile : String → Except String Nat) :
    List String → List (String × Nat)
  | [] => []
  | f :: rest =>
    (f, match runFile f with | .ok n => n | .error _ => 0) ::
      cliRunFiles runFile rest

/-- A concrete per-document outcome oracle: doc1 raises, everything else
yields one chunk. -/
def c8oracle : String → Except String Nat :=
  fun d => if d = "doc1" then .error "boom" else .ok 1

/-! ### The incremental index tracker (get_indexed_file_ids)

The API version (src/api/app.py lines 164-213) wraps everything in a try
block: a non-200 stats response, a zero vector count, a non-200 sample
query or any exception all return the empty list; the sample query is only
issued when the vector count is positive.  The CLI version
(src/ingest_transcripts.py lines 66-107) calls raise_for_status on the
stats response outside any try block, so a stats failure propagates; its
fetch call is inside a try block whose handler prints "Continuing with
empty file ID list..." -- but the variable file_ids is assigned inside the
try block after the fetch, so when the fetch fails the subsequent
list(file_ids) raises NameError, which propagates.  A store request either
raises a transport exception, returns a non-2xx response, or returns a
parsed payload. -/

/-- Outcome of one request to the vector store. -/
inductive NetResult (α : Type) where
  | exn : NetResult α
  | badStatus : NetResult α
  | ok : α → NetResult α
deriving DecidableEq

/-- Metadata of a stored vector, as a string-valued dictionary. -/
abbrev PMeta : Type := List (String × String)

/-- The errors the CLI version can let escape. -/
inductive CliErr where
  | transport : CliErr
  | httpError : CliErr
  | nameError : CliErr
deriving DecidableEq

/-- Extract the deduplicated fileId values from sampled matches, keeping
first-seen order (the API version tests key presence). -/
def collectFileIds (ms : List PMeta) : List String :=
  ms.foldl
    (fun acc m =>
      match m.lookup "fileId" with
      | some v => if v ∈ acc then acc else acc ++ [v]
      | none => acc)
    []

/-- Extract the deduplicated truthy fileId values from fetched vectors (the
CLI version tests the truthiness of the value, so an empty string is
skipped). -/
def collectFileIdsCli (vs : List PMeta) : List String :=
  vs.foldl
    (fun acc m =>
      match m.lookup "fileId" with
      | some v => if v = "" then acc else if v ∈ acc then acc else acc ++ [v]
      | none => acc)
    []

/-- get_indexed_file_ids of src/api/app.py: stats ok and zero count, or any
failure of either request, give the empty list; the sample query result is
only consulted when the count is positive. -/
def get_indexed_file_ids_api (stats : NetResult Nat)
    (sample : NetResult (List PMeta)) : List String :=
  match stats with
  | .exn => []
  | .badStatus => []
  | .ok 0 => []
  | .ok (_ + 1) =>
    match sample with
    | .exn => []
    | .badStatus => []
    | .ok ms => collectFileIds ms

/-- get_indexed_file_ids of src/ingest_transcripts.py: a stats transport
error propagates, a stats non-2xx raises through raise_for_status, a zero
count returns the empty list before fetching, and a failed fetch ends in
NameError because file_ids was never assigned. -/
def get_indexed_file_ids_cli (stats : NetResult Nat)
    (fetch : NetResult (List PMeta)) : Except CliErr (List String) :=
  match stats with
  | .exn => .error .transport
  | .badStatus => .error .httpError
  | .ok 0 => .ok []
  | .ok (_ + 1) =>
    match fetch with
    | .exn => .error .nameError
    | .badStatus => .error .nameError
    | .ok vs => .ok (collectFileIdsCli vs)

/-! ### The retrieval formatter (query_vectors, src/api/app.py lines
534-561)

Each returned match is mapped to a context item; the context string joins
the items in the returned order with a blank line between entries.  topK is
only forwarded to the store request, never used to pad or trim the returned
matches. -/

/-- A match as returned by the store query (score, metadata dictionary). -/
structure PineMatch where
  score : Option ℚ
  metadata : PMeta
deriving DecidableEq

/-- A formatted context item. -/
structure CtxItem where
  score : Option ℚ
  content : String
  fileId : Option String
  title : String
deriving DecidableEq

/-- Default items for positional access. -/
def dummyCtxItem : CtxItem :=
  { score := none, content := "", fileId := none, title := "" }

/-- Default match for positional access. -/
def dummyPineMatch : PineMatch :=
  { score := none, metadata := [] }

/-- The per-match mapping: content defaults to "No text available", title
to "Unknown". -/
def mkCtxItem (m : PineMatch) : CtxItem :=
  { score := m.score
    content := (m.metadata.lookup "text").getD "No text available"
    fileId := m.metadata.lookup "fileId"
    title := (m.metadata.lookup "title").getD "Unknown" }

/-- The result formatting of query_vectors: the context items in store
order and the combined context string. -/
def queryFormat (ms : List PineMatch) : String × List CtxItem :=
  (String.intercalate "\n\n"
      ((ms.map mkCtxItem).map (fun it => "[" ++ it.title ++ "]: " ++ it.content)),
    ms.map mkCtxItem)

/-- Default record for positional access. -/
def dummyVecRecord : VectorRecord :=
  { id := "", values := [], metaText := [], fileId := "", title := "", vtype := "" }

/-! ### Theorems about the chunker -/

/-- Once the loop of chunk_text on "hello world" with chunk_size 512 and
overlap 50 reaches start = -39, it stays there forever: each iteration
computes end = min(start + 512, 11) = 11, skips refinement, and sets
start = 11 - 50 = -39 again. -/
theorem chunkLoop_hw_stuck :
    ∀ fuel acc, chunkLoop hw 512 50 fuel (-39) acc = none := by
  intro fuel
  induction fuel with
  | zero => intro acc; rfl
  | succ n ih => intro acc; exact ih (pySlice hw (-39) 11 :: acc)

/-- C1: the claim fails because the code never terminates.  On the
whitespace-normalised text "hello world" (length 11) with chunk_size = 512
and overlap = 50 (valid parameters: 0 < 512 and 0 <= 50 < 512) the loop of
chunk_text runs forever: after emitting the final chunk with end = 11 it
sets start = 11 - 50 = -39 < 11 and repeats the same state.  The fueled
model therefore returns none for every fuel, i.e. no number of iterations
completes the loop.  The same happens for every nonempty text whenever
overlap > 0. -/
theorem chunk_text_hello_world_diverges :
    ∀ fuel, chunk_text hw 512 50 fuel = none := by
  intro fuel
  cases fuel with
  | zero => rfl
  | succ n => exact chunkLoop_hw_stuck n [pySlice hw 0 11]

/-- C2 counterexample: on c2text (period at index 6, length 31) with
chunk_size = 25 and overlap = 0, the naive end of the first chunk is
min(0 + 25, 31) = 25 and 25 < 31 makes it a non-final chunk, yet the
refinement moves the end backward to 7 = 6 + 1, producing a first chunk of
length 7, shorter than the naive 25 -- contradicting the claim that the
refined end is always at least the naive end. -/
theorem refineEnd_shrinks_counterexample :
    refineEnd c2text 25 = 7 ∧ (25 : Int) < (c2text.length : Int) ∧
      (chunk_text c2text 25 0 4).map (fun cs => cs.map List.length) =
        some [7, 24] := by
  refine ⟨rfl, by decide, rfl⟩

/-- A found index is at least the adjusted start position. -/
theorem pyFind_ge (l : List Char) (c : Char) (start : Int) :
    pyFind l c start = -1 ∨
      (pyAdjIndex l.length start : Int) ≤ pyFind l c start := by
  unfold pyFind
  cases h : (l.drop (pyAdjIndex l.length start)).findIdx? (fun x => x = c) with
  | none => simp [h]
  | some k =>
    right
    simp only [h]
    omega

/-- C2 amended: for a non-final chunk (proposed end e with e < len), the
sentence-boundary refinement keeps the end within the window
[e - 19, e + 20]: it extends by at most 20 characters, but -- contrary to
the claim -- it may also move the end backward, by up to 19 characters,
when the first period at or after position e - 20 lies before e. -/
theorem refineEnd_window_bounds (cleaned : List Char) (e : Int)
    (h : e < (cleaned.length : Int)) :
    e - 19 ≤ refineEnd cleaned e ∧ refineEnd cleaned e ≤ e + 20 := by
  unfold refineEnd
  by_cases hc : 0 < pyFind cleaned '.' (e - 20) ∧
      pyFind cleaned '.' (e - 20) < e + 20
  · simp only [if_pos hc]
    rcases pyFind_ge cleaned '.' (e - 20) with hfind | hfind
    · omega
    · constructor
      · by_cases he : e ≤ 20
        · omega
        · have hadj : ((pyAdjIndex cleaned.length (e - 20) : Nat) : Int) =
              e - 20 := by
            unfold pyAdjIndex
            have h1 : ¬ (e - 20 < 0) := by omega
            simp only [if_neg h1]
            have h2 : (e - 20).toNat ≤ cleaned.length := by omega
            have h3 : min (e - 20).toNat cleaned.length = (e - 20).toNat :=
              min_eq_left h2
            rw [h3]
            omega
          omega
      · omega
  · simp only [if_neg hc]
    omega

/-- Witness for refineEnd_window_bounds at the concrete input c2text with
proposed end 25. -/
theorem refineEnd_window_bounds_witness :
    (25 : Int) < (c2text.length : Int) ∧
      (25 : Int) - 19 ≤ refineEnd c2text 25 ∧ refineEnd c2text 25 ≤ 25 + 20 :=
  ⟨by decide, refineEnd_window_bounds c2text 25 (by decide)⟩

/-! ### Boundedness of the generator state and range of the draws -/

/-- Indexing a list of 32-bit words with default 0 yields a 32-bit word. -/
theorem getD_lt_of_bounded :
    ∀ l : List Nat, (∀ x ∈ l, x < 2 ^ 32) → ∀ i, l.getD i 0 < 2 ^ 32
  | [], _, i => by simp
  | x :: xs, h, 0 => by simpa using h x (List.mem_cons_self x xs)
  | x :: xs, h, i + 1 => by
    simpa using
      getD_lt_of_bounded xs (fun y hy => h y (List.mem_cons_of_mem x hy)) i

/-- Writing a 32-bit word keeps all entries 32-bit. -/
theorem bounded_set {l : List Nat} (h : ∀ x ∈ l, x < 2 ^ 32) {v : Nat}
    (hv : v < 2 ^ 32) (i : Nat) : ∀ x ∈ l.set i v, x < 2 ^ 32 := by
  intro x hx
  rcases List.mem_or_eq_of_mem_set hx with h1 | h1
  · exact h x h1
  · omega

/-- A right shift never increases a natural number. -/
theorem shiftRight_self_le (y k : Nat) : y >>> k ≤ y := by
  rw [Nat.shiftRight_eq_div_pow]
  exact Nat.div_le_self y (2 ^ k)

/-- The MT19937 tempering maps 32-bit words to 32-bit words. -/
theorem mtTemper_lt {y : Nat} (h : y < 2 ^ 32) : mtTemper y < 2 ^ 32 := by
  unfold mtTemper
  have h1 : y ^^^ (y >>> 11) < 2 ^ 32 :=
    Nat.xor_lt_two_pow h (lt_of_le_of_lt (shiftRight_self_le y 11) h)
  have h2 : (y ^^^ (y >>> 11)) ^^^ (((y ^^^ (y >>> 11)) <<< 7) &&& 0x9d2c5680)
      < 2 ^ 32 :=
    Nat.xor_lt_two_pow h1 (Nat.and_lt_two_pow _ (by norm_num))
  have h3 := Nat.xor_lt_two_pow h2 (Nat.and_lt_two_pow
    (((y ^^^ (y >>> 11)) ^^^ (((y ^^^ (y >>> 11)) <<< 7) &&& 0x9d2c5680)) <<< 15)
    (show (0xefc60000 : Nat) < 2 ^ 32 by norm_num))
  exact Nat.xor_lt_two_pow h3 (lt_of_le_of_lt (shiftRight_self_le _ 18) h3)

/-- One twist step keeps all entries 32-bit. -/
theorem twistStep_bounded {mt : List Nat} (h : ∀ x ∈ mt, x < 2 ^ 32)
    (kk : Nat) : ∀ x ∈ twistStep mt kk, x < 2 ^ 32 := by
  unfold twistStep
  apply bounded_set h
  have hy : ((mt.getD kk 0) &&& 0x80000000) |||
      ((mt.getD ((kk + 1) % 624) 0) &&& 0x7fffffff) < 2 ^ 32 :=
    Nat.or_lt_two_pow (Nat.and_lt_two_pow _ (by norm_num))
      (Nat.and_lt_two_pow _ (by norm_num))
  apply Nat.xor_lt_two_pow
  · exact Nat.xor_lt_two_pow (getD_lt_of_bounded mt h _)
      (lt_of_le_of_lt (shiftRight_self_le _ 1) hy)
  · split <;> norm_num

/-- Folding a predicate-preserving step preserves the predicate. -/
theorem foldl_bounded {β : Type} (P : List Nat → Prop)
    (f : List Nat → β → List Nat) (hf : ∀ a b, P a → P (f a b)) :
    ∀ (l : List β) (a : List Nat), P a → P (l.foldl f a)
  | [], _, h => h
  | b :: l, a, h => foldl_bounded P f hf l (f a b) (hf a b h)

/-- The twist keeps all entries 32-bit. -/
theorem mtTwist_bounded {mt : List Nat} (h : ∀ x ∈ mt, x < 2 ^ 32) :
    ∀ x ∈ mtTwist mt, x < 2 ^ 32 :=
  foldl_bounded (fun l => ∀ x ∈ l, x < 2 ^ 32) twistStep
    (fun _ b ha => twistStep_bounded ha b) (List.range 624) mt h

/-- The init_genrand recurrence produces 32-bit words. -/
theorem initGenrandFrom_bounded :
    ∀ (k prev i : Nat), ∀ x ∈ initGenrandFrom prev i k, x < 2 ^ 32
  | 0, _, _ => by simp [initGenrandFrom]
  | k + 1, prev, i => by
    intro x hx
    simp only [initGenrandFrom, List.mem_cons] at hx
    rcases hx with h1 | h1
    · subst h1; exact Nat.mod_lt _ (by norm_num)
    · exact initGenrandFrom_bounded k _ (i + 1) x h1

/-- init_genrand produces a 32-bit state. -/
theorem initGenrandList_bounded (s : Nat) :
    ∀ x ∈ initGenrandList s, x < 2 ^ 32 := by
  intro x hx
  simp only [initGenrandList, List.mem_cons] at hx
  rcases hx with h1 | h1
  · subst h1; exact Nat.mod_lt _ (by norm_num)
  · exact initGenrandFrom_bounded 623 _ 1 x h1

/-- The wrap-around step keeps all entries 32-bit. -/
theorem ibaWrap_bounded {mt : List Nat} (h : ∀ x ∈ mt, x < 2 ^ 32) (i : Nat) :
    ∀ x ∈ (ibaWrap mt i).1, x < 2 ^ 32 := by
  unfold ibaWrap
  split
  · exact bounded_set h (getD_lt_of_bounded mt h 623) 0
  · exact h

/-- The first init_by_array loop keeps all entries 32-bit. -/
theorem ibaLoop1_bounded (key : List Nat) :
    ∀ (k : Nat) (mt : List Nat), (∀ x ∈ mt, x < 2 ^ 32) → ∀ (i j : Nat),
      ∀ x ∈ (ibaLoop1 key k mt i j).1, x < 2 ^ 32
  | 0, mt, h, _, _ => h
  | k + 1, mt, h, i, j =>
    ibaLoop1_bounded key k _
      (ibaWrap_bounded (bounded_set h (Nat.mod_lt _ (by norm_num)) i) (i + 1))
      _ _

/-- The second init_by_array loop keeps all entries 32-bit. -/
theorem ibaLoop2_bounded :
    ∀ (k : Nat) (mt : List Nat), (∀ x ∈ mt, x < 2 ^ 32) → ∀ i : Nat,
      ∀ x ∈ ibaLoop2 k mt i, x < 2 ^ 32
  | 0, _, h, _ => h
  | k + 1, mt, h, i =>
    ibaLoop2_bounded k _
      (ibaWrap_bounded (bounded_set h (Nat.mod_lt _ (by norm_num)) i) (i + 1))
      _

/-- init_by_array produces a 32-bit state. -/
theorem initByArray_bounded (key : List Nat) :
    ∀ x ∈ initByArray key, x < 2 ^ 32 := by
  unfold initByArray
  exact bounded_set
    (ibaLoop2_bounded 623 _
      (ibaLoop1_bounded key (max 624 key.length) _
        (initGenrandList_bounded 19650218) 1 0) _)
    (by norm_num) 0

/-- The state component of a freshly seeded generator. -/
theorem pySeedMT_mt (n : Nat) :
    (pySeedMT n).mt = initByArray (pyIntSeedKey n) := by
  simp only [pySeedMT]

/-- Seeding yields a 32-bit state. -/
theorem pySeedMT_bounded (n : Nat) : ∀ x ∈ (pySeedMT n).mt, x < 2 ^ 32 := by
  rw [pySeedMT_mt]
  exact initByArray_bounded (pyIntSeedKey n)

/-- genrand_uint32 outputs a 32-bit value and keeps the state 32-bit. -/
theorem genrandStep_bounded {s : MTState} (h : ∀ x ∈ s.mt, x < 2 ^ 32) :
    (genrandStep s).1 < 2 ^ 32 ∧ ∀ x ∈ (genrandStep s).2.mt, x < 2 ^ 32 := by
  by_cases hc : 624 ≤ s.mti
  · simp only [genrandStep, if_pos hc]
    exact ⟨mtTemper_lt (getD_lt_of_bounded _ (mtTwist_bounded h) _),
      mtTwist_bounded h⟩
  · simp only [genrandStep, if_neg hc]
    exact ⟨mtTemper_lt (getD_lt_of_bounded _ h _), h⟩

/-- random() lies in the interval [0, 1) and keeps the state 32-bit. -/
theorem pyRandom_bounds {s : MTState} (h : ∀ x ∈ s.mt, x < 2 ^ 32) :
    (0 ≤ (pyRandom s).1 ∧ (pyRandom s).1 < 1) ∧
      ∀ x ∈ (pyRandom s).2.mt, x < 2 ^ 32 := by
  obtain ⟨ha, h1⟩ := genrandStep_bounded h
  obtain ⟨hb, h2⟩ := genrandStep_bounded h1
  refine ⟨⟨by unfold pyRandom; positivity, ?_⟩, h2⟩
  show ((((genrandStep s).1 >>> 5) * 67108864 +
      ((genrandStep (genrandStep s).2).1 >>> 6) : Nat) : ℚ) /
      9007199254740992 < 1
  rw [div_lt_one (by norm_num)]
  have ha5 : (genrandStep s).1 >>> 5 < 2 ^ 27 := by
    rw [Nat.shiftRight_eq_div_pow]
    omega
  have hb6 : (genrandStep (genrandStep s).2).1 >>> 6 < 2 ^ 26 := by
    rw [Nat.shiftRight_eq_div_pow]
    omega
  have hk : ((genrandStep s).1 >>> 5) * 67108864 +
      (genrandStep (genrandStep s).2).1 >>> 6 < 9007199254740992 := by omega
  exact_mod_cast Nat.cast_lt.mpr hk

/-- uniform(-1, 1) lies in [-1, 1] and keeps the state 32-bit. -/
theorem pyUniform_bounds {s : MTState} (h : ∀ x ∈ s.mt, x < 2 ^ 32) :
    (-1 ≤ (pyUniform (-1) 1 s).1 ∧ (pyUniform (-1) 1 s).1 ≤ 1) ∧
      ∀ x ∈ (pyUniform (-1) 1 s).2.mt, x < 2 ^ 32 := by
  obtain ⟨⟨h0, h1⟩, hs⟩ := pyRandom_bounds h
  refine ⟨⟨?_, ?_⟩, hs⟩
  · show -1 ≤ -1 + (1 - -1) * (pyRandom s).1
    linarith
  · show -1 + (1 - -1) * (pyRandom s).1 ≤ 1
    linarith

/-- The draw list always has the requested length. -/
theorem uniformDrawsSt_length : ∀ (n : Nat) (s : MTState),
    (uniformDrawsSt n s).1.length = n
  | 0, _ => rfl
  | k + 1, s => by simp [uniformDrawsSt, uniformDrawsSt_length k]

/-- Every draw lies in [-1, 1] (as a Boolean check over the list). -/
theorem uniformDrawsSt_range : ∀ (n : Nat) (s : MTState),
    (∀ x ∈ s.mt, x < 2 ^ 32) →
      (uniformDrawsSt n s).1.all
        (fun x => decide (-1 ≤ x) && decide (x ≤ 1)) = true
  | 0, _, _ => rfl
  | k + 1, s, h => by
    obtain ⟨⟨h0, h1⟩, hs⟩ := pyUniform_bounds h
    simp only [uniformDrawsSt, List.all_cons, Bool.and_eq_true, decide_eq_true_eq]
    exact ⟨⟨h0, h1⟩, uniformDrawsSt_range k _ hs⟩

/-! ### Theorems about the embedders -/

/-- C9: generate_deterministic_embedding is exactly reproducible and well
formed.  Being a pure function of its arguments, two calls with the same
text and dimension are the same term, hence identical; the first conjunct
shows the vector factors through the seed md5Int text mod 2^32 alone (the
right-hand side does not mention the text otherwise); the vector has
exactly dimension entries, each lying in [-1, 1]. -/
theorem generate_deterministic_embedding_spec (text : List Nat)
    (dimension : Nat) :
    generate_deterministic_embedding text dimension =
        (uniformDrawsSt dimension (pySeedMT (md5Int text % 2 ^ 32))).1 ∧
      (generate_deterministic_embedding text dimension).length = dimension ∧
      (generate_deterministic_embedding text dimension).all
        (fun x => decide (-1 ≤ x) && decide (x ≤ 1)) = true :=
  ⟨rfl, uniformDrawsSt_length dimension _,
    uniformDrawsSt_range dimension _ (pySeedMT_bounded _)⟩

/-- C10: the two fallback embedders agree extensionally: for every prior
module-generator state g, every text and every dimension,
generate_simple_embedding returns the very vector of
generate_deterministic_embedding -- random.seed overwrites the module state
with exactly the state a fresh random.Random(seed) would have, so the prior
state g is irrelevant. -/
theorem generate_simple_eq_deterministic (g1 g2 : MTState) (text : List Nat)
    (dimension : Nat) :
    (generate_simple_embedding g1 text dimension).1 =
        generate_deterministic_embedding text dimension ∧
      generate_simple_embedding g1 text dimension =
        generate_simple_embedding g2 text dimension :=
  ⟨rfl, rfl⟩

/-- An all-failure window of attempts exhausts the retry loop. -/
theorem embedAttempts_all_fail (outcomes : Nat → AttemptOutcome) :
    ∀ (k start : Nat),
      (∀ i, start ≤ i → i < start + k → outcomes i = .failure) →
        embedAttempts outcomes start k = none
  | 0, _, _ => rfl
  | k + 1, start, h => by
    have hs : outcomes start = .failure := h start le_rfl (by omega)
    simp only [embedAttempts, hs]
    exact embedAttempts_all_fail outcomes k (start + 1)
      (fun i h1 h2 => h i (by omega) (by omega))

/-- The deterministic embedding has the requested number of entries. -/
theorem generate_deterministic_embedding_length (text : List Nat)
    (dimension : Nat) :
    (generate_deterministic_embedding text dimension).length = dimension :=
  uniformDrawsSt_length dimension _

/-- C3: generate_embedding never fails the caller and returns the
configured dimension 1024 in both degraded paths: with no credential it is
the deterministic embedding immediately, for every outcome oracle (so no
network attempt can influence it); with a credential, whenever all retries
attempts fail it is again the deterministic embedding.  (On a successful
attempt the code returns the provider payload unvalidated; the dimension
guarantee of the claim is the one of the fallback paths.) -/
theorem generate_embedding_fallback (outcomes : Nat → AttemptOutcome)
    (retries : Nat) (text : List Nat) (key : String)
    (hfail : ∀ i, i < retries → outcomes i = .failure) :
    generate_embedding none outcomes retries text =
        generate_deterministic_embedding text 1024 ∧
      (generate_embedding none outcomes retries text).length = 1024 ∧
      generate_embedding (some key) outcomes retries text =
        generate_deterministic_embedding text 1024 ∧
      (generate_embedding (some key) outcomes retries text).length = 1024 := by
  have hnone : embedAttempts outcomes 0 retries = none :=
    embedAttempts_all_fail outcomes retries 0
      (fun i h1 h2 => hfail i (by omega))
  refine ⟨rfl, generate_deterministic_embedding_length text 1024, ?_, ?_⟩
  · simp only [generate_embedding, hnone, Option.getD_none]
  · simp only [generate_embedding, hnone, Option.getD_none]
    exact generate_deterministic_embedding_length text 1024

/-- Witness for generate_embedding_fallback: the constant-failure oracle
with the default three retries on the byte string of "hi". -/
theorem generate_embedding_fallback_witness :
    (∀ i, i < 3 → (fun _ => AttemptOutcome.failure) i = .failure) ∧
      (generate_embedding none (fun _ => AttemptOutcome.failure) 3 [104, 105] =
          generate_deterministic_embedding [104, 105] 1024 ∧
        (generate_embedding none (fun _ => AttemptOutcome.failure) 3
            [104, 105]).length = 1024 ∧
        generate_embedding (some "key") (fun _ => AttemptOutcome.failure) 3
            [104, 105] =
          generate_deterministic_embedding [104, 105] 1024 ∧
        (generate_embedding (some "key") (fun _ => AttemptOutcome.failure) 3
            [104, 105]).length = 1024) :=
  ⟨fun _ _ => rfl,
    generate_embedding_fallback (fun _ => AttemptOutcome.failure) 3 [104, 105]
      "key" (fun _ _ => rfl)⟩

/-! ### Theorems about the batch pipeline -/

/-- Enumeration distributes over append, continuing the count. -/
theorem pyEnumFrom_append (l1 l2 : List α) :
    ∀ n, pyEnumFrom n (l1 ++ l2) =
      pyEnumFrom n l1 ++ pyEnumFrom (n + l1.length) l2 := by
  induction l1 with
  | nil => intro n; simp [pyEnumFrom]
  | cons x xs ih =>
    intro n
    have h : n + (x :: xs).length = n + 1 + xs.length := by
      simp only [List.length_cons]
      omega
    calc pyEnumFrom n ((x :: xs) ++ l2)
        = (n, x) :: pyEnumFrom (n + 1) (xs ++ l2) := rfl
      _ = (n, x) :: (pyEnumFrom (n + 1) xs ++ pyEnumFrom (n + 1 + xs.length) l2) := by
          rw [ih (n + 1)]
      _ = pyEnumFrom n (x :: xs) ++ pyEnumFrom (n + (x :: xs).length) l2 := by
          rw [h]
          simp [pyEnumFrom]

/-- Shifting the enumeration base inside or outside the mapped function is
the same. -/
theorem pyEnumFrom_map_shift {β : Type} (g : Nat → List Char → β) :
    ∀ (l : List (List Char)) (a b : Nat),
      (pyEnumFrom a l).map (fun p => g (b + p.1) p.2) =
        (pyEnumFrom (b + a) l).map (fun p => g p.1 p.2) := by
  intro l
  induction l with
  | nil => intro a b; rfl
  | cons x xs ih =>
    intro a b
    simp only [pyEnumFrom, List.map_cons, ih (a + 1) b]
    have h : b + (a + 1) = b + a + 1 := by omega
    rw [h]

/-- Length of a mapped enumeration. -/
theorem pyEnumFrom_map_length {β : Type} (f : Nat × List Char → β) :
    ∀ (l : List (List Char)) (n : Nat), ((pyEnumFrom n l).map f).length = l.length := by
  intro l
  induction l with
  | nil => intro n; rfl
  | cons x xs ih => intro n; simp [pyEnumFrom, ih (n + 1)]

/-- Element k of a mapped enumeration. -/
theorem pyEnumFrom_map_getD {β : Type} (f : Nat → List Char → β) (d : β) :
    ∀ (l : List (List Char)) (n k : Nat), k < l.length →
      ((pyEnumFrom n l).map (fun p => f p.1 p.2)).getD k d =
        f (n + k) (l.getD k []) := by
  intro l
  induction l with
  | nil => intro n k h; simp at h
  | cons x xs ih =>
    intro n k h
    cases k with
    | zero => simp [pyEnumFrom]
    | succ k' =>
      simp only [pyEnumFrom, List.map_cons, List.getD_cons_succ]
      rw [ih (n + 1) k' (by simpa using h)]
      have he : n + 1 + k' = n + (k' + 1) := by omega
      rw [he]

/-- Concatenating the per-batch record lists of the batch loop, over the
batch starts range(s, ...), yields exactly one record per chunk in order,
with the global chunk indices continuing from s. -/
theorem batchVectors_flatten (docId name ty : String)
    (embed : List Char → List ℚ) :
    ∀ (k : Nat) (l : List (List Char)) (s : Nat), numBatches l.length = k →
      ((List.range' s k 10).map
          (fun i => (pyEnum ((l.drop (i - s)).take 10)).map
            (fun p => mkVecRecord docId name ty embed (i + p.1) p.2))).flatten =
        (pyEnumFrom s l).map
          (fun p => mkVecRecord docId name ty embed p.1 p.2) := by
  intro k
  induction k with
  | zero =>
    intro l s h
    have hl : l.length = 0 := by
      unfold numBatches at h
      omega
    rw [List.eq_nil_of_length_eq_zero hl]
    rfl
  | succ m ih =>
    intro l s h
    rw [List.range'_succ, List.map_cons, List.flatten_cons]
    have hdrop : numBatches (l.drop 10).length = m := by
      unfold numBatches at h ⊢
      simp only [List.length_drop]
      omega
    have htail : (List.range' (s + 10) m 10).map
        (fun i => (pyEnum ((l.drop (i - s)).take 10)).map
          (fun p => mkVecRecord docId name ty embed (i + p.1) p.2)) =
        (List.range' (s + 10) m 10).map
          (fun i => (pyEnum (((l.drop 10).drop (i - (s + 10))).take 10)).map
            (fun p => mkVecRecord docId name ty embed (i + p.1) p.2)) := by
      apply List.map_congr_left
      intro i hi
      rcases List.mem_range'.mp hi with ⟨w, hw, rfl⟩
      have hd : (List.drop 10 l).drop (s + 10 + 10 * w - (s + 10)) =
          l.drop (s + 10 + 10 * w - s) := by
        rw [List.drop_drop]
        congr 1
        omega
      rw [hd]
    rw [htail, ih (l.drop 10) (s + 10) hdrop]
    have hself : l.drop (s - s) = l := by simp
    rw [hself]
    conv_rhs => rw [← List.take_append_drop 10 l]
    rw [pyEnumFrom_append, List.map_append]
    have hhead : (pyEnum (l.take 10)).map
        (fun p => mkVecRecord docId name ty embed (s + p.1) p.2) =
        (pyEnumFrom s (l.take 10)).map
          (fun p => mkVecRecord docId name ty embed p.1 p.2) := by
      unfold pyEnum
      rw [pyEnumFrom_map_shift (fun a b => mkVecRecord docId name ty embed a b)
        (l.take 10) 0 s, Nat.add_zero]
    rw [hhead]
    by_cases h10 : 10 ≤ l.length
    · have : (l.take 10).length = 10 := by
        rw [List.length_take]
        omega
      rw [this]
    · have hm0 : m = 0 := by
        unfold numBatches at h
        omega
      have hnil : l.drop 10 = [] := by
        apply List.drop_eq_nil_of_le
        omega
      subst hm0
      rw [hnil]
      simp [pyEnumFrom]

/-- The record list of one document is the chunk list enumerated from 0. -/
theorem appDocRecords_eq (docId name ty : String)
    (embed : List Char → List ℚ) (upsertOk : Nat → Bool)
    (chunks : List (List Char)) :
    appDocRecords docId name ty embed upsertOk chunks =
      (pyEnumFrom 0 chunks).map
        (fun p => mkVecRecord docId name ty embed p.1 p.2) := by
  unfold appDocRecords appBatchLoop batchStarts batchVectors
  rw [List.map_map]
  have hcongr : (List.range' 0 (numBatches chunks.length) 10).map
      ((fun e => e.2.1) ∘ fun i =>
        (i, (pyEnum ((chunks.drop i).take 10)).map
          (fun p => mkVecRecord docId name ty embed (i + p.1) p.2),
          upsertOk i)) =
      (List.range' 0 (numBatches chunks.length) 10).map
        (fun i => (pyEnum ((chunks.drop (i - 0)).take 10)).map
          (fun p => mkVecRecord docId name ty embed (i + p.1) p.2)) := by
    apply List.map_congr_left
    intro i hi
    simp
  rw [hcongr]
  exact batchVectors_flatten docId name ty embed (numBatches chunks.length)
    chunks 0 rfl

/-- C4: every record the pipeline builds for a document carries id
docId ++ "-chunk-" ++ k, where k is the 0-based global index of its chunk
(preserved across batch boundaries), metadata text truncated to 1000
characters, and fileId equal to the document id; the id depends on the
document id and chunk index alone, so re-upserting the same pair yields
the same id. -/
theorem vector_record_id_spec (docId name ty : String)
    (embed : List Char → List ℚ) (upsertOk : Nat → Bool)
    (chunks : List (List Char)) (k : Nat) (h : k < chunks.length) :
    (appDocRecords docId name ty embed upsertOk chunks).length =
        chunks.length ∧
      ((appDocRecords docId name ty embed upsertOk chunks).getD k
          dummyVecRecord).id = docId ++ "-chunk-" ++ toString k ∧
      ((appDocRecords docId name ty embed upsertOk chunks).getD k
          dummyVecRecord).metaText = (chunks.getD k []).take 1000 ∧
      ((appDocRecords docId name ty embed upsertOk chunks).getD k
          dummyVecRecord).fileId = docId := by
  rw [appDocRecords_eq]
  refine ⟨pyEnumFrom_map_length _ chunks 0, ?_, ?_, ?_⟩ <;>
    rw [pyEnumFrom_map_getD (fun a b => mkVecRecord docId name ty embed a b)
      dummyVecRecord chunks 0 k h] <;>
    simp [mkVecRecord]

/-- Witness for vector_record_id_spec on a one-chunk document. -/
theorem vector_record_id_spec_witness :
    0 < ([['a']] : List (List Char)).length ∧
      ((appDocRecords "d" "nm" "t" (fun _ => []) (fun _ => true)
          [['a']]).length = ([['a']] : List (List Char)).length ∧
        ((appDocRecords "d" "nm" "t" (fun _ => []) (fun _ => true)
            [['a']]).getD 0 dummyVecRecord).id = "d" ++ "-chunk-" ++ toString 0 ∧
        ((appDocRecords "d" "nm" "t" (fun _ => []) (fun _ => true)
            [['a']]).getD 0 dummyVecRecord).metaText =
          (([['a']] : List (List Char)).getD 0 []).take 1000 ∧
        ((appDocRecords "d" "nm" "t" (fun _ => []) (fun _ => true)
            [['a']]).getD 0 dummyVecRecord).fileId = "d") :=
  ⟨by decide,
    vector_record_id_spec "d" "nm" "t" (fun _ => []) (fun _ => true) [['a']] 0
      (by decide)⟩

/-- C7 counterexample: a document of eleven chunks has batches starting at
0 and 10; in the CLI script an upsert failure on the first batch leaves
only that batch attempted -- the second is never tried -- while with
successful upserts both are.  This refutes the claim for the CLI ingestion
path. -/
theorem cli_upsert_abort_counterexample :
    batchStarts elevenChunks.length = [0, 10] ∧
      (cliBatchLoop "f" "nm" (fun _ => []) (fun _ => false)
          elevenChunks).1.map Prod.fst = [0] ∧
      (cliBatchLoop "f" "nm" (fun _ => []) (fun _ => true)
          elevenChunks).1.map Prod.fst = [0, 10] := by
  refine ⟨by decide, by decide, by decide⟩

/-- C7 amended: in the API ingestion paths (process_documents_background,
process_file) a failed batch upsert is only logged: the attempted batches
and their records are the same for every upsert-outcome oracle, and every
batch of the document is attempted.  In the CLI script
(process_transcript) an upsert failure instead raises, so the batch where
it happens is the last one attempted for that document. -/
theorem upsert_failure_isolation (docId name ty : String)
    (embed : List Char → List ℚ) (o1 o2 upsertOk : Nat → Bool)
    (chunks : List (List Char)) (i : Nat) (more : List Nat)
    (hfail : upsertOk i = false) :
    ((appBatchLoop docId name ty embed o1 chunks).map (fun e => (e.1, e.2.1)) =
        (appBatchLoop docId name ty embed o2 chunks).map
          (fun e => (e.1, e.2.1))) ∧
      (appBatchLoop docId name ty embed o1 chunks).map (fun e => e.1) =
        batchStarts chunks.length ∧
      cliBatchGo docId name embed upsertOk chunks (i :: more) =
        ([(i, batchVectors docId name "transcript" embed chunks i)], false) := by
  refine ⟨?_, ?_, ?_⟩
  · unfold appBatchLoop
    rw [List.map_map, List.map_map]
    apply List.map_congr_left
    intro a ha
    rfl
  · unfold appBatchLoop
    rw [List.map_map]
    have hid : ((fun e : Nat × List VectorRecord × Bool => e.1) ∘
        fun i => (i, batchVectors docId name ty embed chunks i, o1 i)) =
        fun i => i := rfl
    rw [hid]
    simp
  · simp only [cliBatchGo, hfail]
    simp

/-- Witness for upsert_failure_isolation: a constantly failing oracle on
the eleven-chunk document at its first batch. -/
theorem upsert_failure_isolation_witness :
    (fun _ : Nat => false) 0 = false ∧
      (((appBatchLoop "d" "nm" "t" (fun _ => []) (fun _ => false)
            elevenChunks).map (fun e => (e.1, e.2.1)) =
          (appBatchLoop "d" "nm" "t" (fun _ => []) (fun _ => true)
            elevenChunks).map (fun e => (e.1, e.2.1))) ∧
        (appBatchLoop "d" "nm" "t" (fun _ => []) (fun _ => false)
            elevenChunks).map (fun e => e.1) =
          batchStarts elevenChunks.length ∧
        cliBatchGo "d" "nm" (fun _ => []) (fun _ => false) elevenChunks
            (0 :: [10]) =
          ([(0, batchVectors "d" "nm" "transcript" (fun _ => [])
              elevenChunks 0)], false)) :=
  ⟨rfl,
    upsert_failure_isolation "d" "nm" "t" (fun _ => []) (fun _ => false)
      (fun _ => true) (fun _ => false) elevenChunks 0 [10] rfl⟩

/-! ### Theorems about document-level error handling -/

/-- C8 counterexample: with two documents where processing the first one
raises, the API background task attempts only doc1 -- doc2 is never
processed, because the lone try block wraps the whole loop -- while the CLI
file loop processes both, recording 0 chunks for the failing file. -/
theorem background_abort_counterexample :
    appBackgroundRun c8oracle ["doc1", "doc2"] = ["doc1"] ∧
      cliRunFiles c8oracle ["doc1", "doc2"] = [("doc1", 0), ("doc2", 1)] := by
  refine ⟨by decide, by decide⟩

/-- C8 amended: in the standalone scripts a document-level exception is
caught inside the per-file processing function, so every file of the run
is still visited (the failing one contributing 0 chunks); in the API
background task an exception raised while processing one document ends the
run -- the failing document is the last one attempted and the remaining
documents are skipped. -/
theorem document_error_isolation (runFile runDoc : String → Except String Nat)
    (files : List String) (d : String) (rest : List String) (e : String)
    (herr : runDoc d = .error e) :
    (cliRunFiles runFile files).map Prod.fst = files ∧
      appBackgroundRun runDoc (d :: rest) = [d] := by
  constructor
  · induction files with
    | nil => rfl
    | cons f fs ih => simp [cliRunFiles, ih]
  · simp [appBackgroundRun, herr]

/-- Witness for document_error_isolation at the concrete oracle. -/
theorem document_error_isolation_witness :
    c8oracle "doc1" = .error "boom" ∧
      ((cliRunFiles c8oracle ["doc1", "doc2"]).map Prod.fst =
          ["doc1", "doc2"] ∧
        appBackgroundRun c8oracle ("doc1" :: ["doc2"]) = ["doc1"]) :=
  ⟨rfl,
    document_error_isolation c8oracle c8oracle ["doc1", "doc2"] "doc1"
      ["doc2"] "boom" rfl⟩

/-! ### Theorems about the incremental index tracker -/

/-- C5: the claim holds for the API implementation but the CLI
implementation contradicts it: there, after the handler prints that it
will continue with an empty list, list(file_ids) raises NameError (file_ids
is assigned only after a successful fetch), and a stats failure is not
caught at all.  This theorem records both the failing CLI behaviours and
the degrading API behaviours, including that a zero count answers the
empty list for every sample outcome (the sample query is not consulted). -/
theorem get_indexed_file_ids_divergence :
    get_indexed_file_ids_cli (.ok 5) .exn = .error .nameError ∧
      get_indexed_file_ids_cli (.ok 5) .badStatus = .error .nameError ∧
      get_indexed_file_ids_cli .badStatus (.ok []) = .error .httpError ∧
      get_indexed_file_ids_cli .exn (.ok []) = .error .transport ∧
      get_indexed_file_ids_cli (.ok 0) .exn = .ok [] ∧
      get_indexed_file_ids_api .badStatus (.ok [[("fileId", "f")]]) = [] ∧
      get_indexed_file_ids_api .exn (.ok [[("fileId", "f")]]) = [] ∧
      get_indexed_file_ids_api (.ok 5) .exn = [] ∧
      get_indexed_file_ids_api (.ok 5) .badStatus = [] ∧
      get_indexed_file_ids_api (.ok 0) .exn = [] ∧
      get_indexed_file_ids_api (.ok 0) .badStatus = [] ∧
      get_indexed_file_ids_api (.ok 0) (.ok [[("fileId", "f")]]) = [] :=
  ⟨rfl, rfl, rfl, rfl, rfl, rfl, rfl, rfl, rfl, rfl, rfl, rfl⟩

/-! ### Theorems about the retrieval formatter -/

/-- C6: the formatted result has exactly one item per returned match (not
padded to topK, which the formatting never reads), each item being the
per-match mapping with the fixed placeholders, the context string joins
the bracketed lines in store order with a blank line between entries, and
zero matches give the empty context string. -/
theorem query_format_spec (ms : List PineMatch) (k : Nat)
    (h : k < ms.length) :
    (queryFormat ms).2.length = ms.length ∧
      (queryFormat ms).2.getD k dummyCtxItem =
        mkCtxItem (ms.getD k dummyPineMatch) ∧
      (queryFormat ms).1 = String.intercalate "\n\n"
        ((queryFormat ms).2.map (fun it => "[" ++ it.title ++ "]: " ++ it.content)) ∧
      (queryFormat ([] : List PineMatch)).1 = "" := by
  refine ⟨by simp [queryFormat], ?_, rfl, rfl⟩
  unfold queryFormat
  simp only
  rw [List.getD_eq_getElem?_getD, List.getD_eq_getElem?_getD,
    List.getElem?_map, List.getElem?_eq_getElem h]
  rfl

/-- Witness for query_format_spec on a two-match response, one match with
full metadata and one with empty metadata. -/
theorem query_format_spec_witness :
    0 < ([⟨some (1 / 2), [("text", "T1"), ("title", "Doc1"), ("fileId", "f1")]⟩,
        ⟨none, []⟩] : List PineMatch).length ∧
      ((queryFormat [⟨some (1 / 2), [("text", "T1"), ("title", "Doc1"),
            ("fileId", "f1")]⟩, ⟨none, []⟩]).2.length =
          ([⟨some (1 / 2), [("text", "T1"), ("title", "Doc1"), ("fileId", "f1")]⟩,
            ⟨none, []⟩] : List PineMatch).length ∧
        (queryFormat [⟨some (1 / 2), [("text", "T1"), ("title", "Doc1"),
            ("fileId", "f1")]⟩, ⟨none, []⟩]).2.getD 0 dummyCtxItem =
          mkCtxItem (([⟨some (1 / 2), [("text", "T1"), ("title", "Doc1"),
            ("fileId", "f1")]⟩, ⟨none, []⟩] : List PineMatch).getD 0
              dummyPineMatch) ∧
        (queryFormat [⟨some (1 / 2), [("text", "T1"), ("title", "Doc1"),
            ("fileId", "f1")]⟩, ⟨none, []⟩]).1 = String.intercalate "\n\n"
          ((queryFormat [⟨some (1 / 2), [("text", "T1"), ("title", "Doc1"),
              ("fileId", "f1")]⟩, ⟨none, []⟩]).2.map
            (fun it => "[" ++ it.title ++ "]: " ++ it.content)) ∧
        (queryFormat ([] : List PineMatch)).1 = "") :=
  ⟨by decide,
    query_format_spec [⟨some (1 / 2), [("text", "T1"), ("title", "Doc1"),
      ("fileId", "f1")]⟩, ⟨none, []⟩] 0 (by decide)⟩

end MC
